import Mathlib

/-!
Shallow embedding of the loan/inventory ledger of `src/app.py`.

The persisted state (tables `item`, `pc`, `loan`) is modelled as Lean lists of
records; each route handler becomes a pure function from the database state and
the (already-lexed) form data to either an error of the app's error taxonomy or
the committed successor state.  SQLAlchemy row lookup by primary key
(`Model.query.get`, `get_or_404`, `filter_by(...).first()`) becomes `List.find?`
on the list, and in-place row mutation becomes an update of the first matching
element.  `datetime` values are modelled as natural-number instants and
date-only values (a due date parsed from `%Y-%m-%d` has no time component, so
`.date()` on it is the identity) as natural-number day indices.

Python truthiness matters in two places and is embedded faithfully:
`if selected_pc_id:` / `if item_id:` treat both `None` and the integer `0` as
absent, which is `truthyId` below.  (SQLAlchemy integer primary keys start
at 1, so the id 0 never denotes a stored row.)
-/

namespace Ikt

/-- Result of lexing the optional `due_date` form field: absent, a parsed
calendar date (`datetime.strptime(s, "%Y-%m-%d")` succeeded), or a string the
parse rejects with `ValueError`. -/
inductive DateField
  | valid (d : Nat)
  | malformed
deriving DecidableEq

/-- Table `item` of `src/app.py` (class `Item`, lines 355-367): a countable
stock item with a total and a currently-available count. -/
structure Item where
  id : Nat
  name : String
  stock_total : Int
  stock_available : Int
deriving DecidableEq

/-- Table `pc` of `src/app.py` (class `PC`, lines 371-383). -/
structure PC where
  id : Nat
  ok_number : String
  model_type : String
  notes : String
deriving DecidableEq

/-- Table `loan` of `src/app.py` (class `Loan`, lines 386-407).  `checkout_date`
and `return_date` are instants; `due_date` is a day index. -/
structure Loan where
  id : Nat
  borrower_name : String
  borrower_phone : String
  class_info : String
  item : String
  reason : String
  checkout_date : Nat
  value : String
  due_date : Option Nat
  return_date : Option Nat
  user_id : Nat
  is_returned : Bool
  pc_id : Option Nat
  item_id : Option Nat
deriving DecidableEq

/-- The persisted ledger state: the three tables the claims are about. -/
structure DB where
  items : List Item
  pcs : List PC
  loans : List Loan
deriving DecidableEq

/-- The acting caller, as supplied by the session (`session['user_id']`,
`session['is_admin']`). -/
structure Actor where
  user_id : Nat
  is_admin : Bool
deriving DecidableEq

/-- The app's error taxonomy: `invalid` = flashed validation error,
`conflict` = exclusivity/uniqueness rejection, `notFound` = `get_or_404`,
`forbidden` = ownership/admin gate. -/
inductive LErr
  | invalid
  | conflict
  | notFound
  | forbidden
deriving DecidableEq

/-- Outcome reported by `return_loan`: freshly marked as returned, or the
"already marked as returned" no-op message. -/
inductive ReturnOutcome
  | marked
  | alreadyReturned
deriving DecidableEq

/-- The stripped form fields read by `new_loan` / `edit_loan`
(`request.form.get(...)` lines 649-660 and 784-795).  `pc_id` / `item_id` are
the result of `int(s) if s else None`. -/
structure LoanForm where
  borrower_name : String
  borrower_phone : String
  class_info : String
  item : String
  reason : String
  value : String
  due_date_field : Option DateField
  pc_id : Option Nat
  item_id : Option Nat
deriving DecidableEq

/-- The JSON payload of `api_borrower_last` (lines 630-638). -/
structure BorrowerLast where
  borrower_phone : String
  class_info : String
  last_item : String
  pc_id : Option Nat
deriving DecidableEq

/-- Update the first element satisfying `p` (ORM mutation of the row fetched by
a primary-key/`first()` query; primary keys are unique, so at most one row
matches). -/
def updateFirstBy (p : α → Bool) (g : α → α) : List α → List α
  | [] => []
  | x :: xs => if p x then g x :: xs else x :: updateFirstBy p g xs

/-- Remove the first element satisfying `p` (`db.session.delete` of the row
fetched by a primary-key query). -/
def removeFirstBy (p : α → Bool) : List α → List α
  | [] => []
  | x :: xs => if p x then xs else x :: removeFirstBy p xs

/-- Python truthiness of an optional integer id: `if x:` is false for both
`None` and `0`. -/
def truthyId : Option Nat → Bool
  | none => false
  | some n => n != 0

/-- `adjust_item_stock(item_id, delta)`, lines 467-483: no-op when `item_id` is
falsy or no such item exists; otherwise clamps the new availability into
`[0, stock_total]` ("Never below 0, never above stock_total").  Total: it never
errors. -/
def adjust_item_stock (items : List Item) (item_id : Option Nat) (delta : Int) :
    List Item :=
  match item_id with
  | none => items
  | some iid =>
    if iid == 0 then items
    else
      updateFirstBy (fun it => it.id == iid)
        (fun it =>
          { it with
            stock_available := max 0 (min (it.stock_available + delta) it.stock_total) })
        items

/-- The predicate of the query
`Loan.query.filter_by(pc_id=p, is_returned=False)` (lines 380, 684, 813). -/
def activePCPred (p : Nat) (l : Loan) : Bool :=
  l.pc_id == some p && !l.is_returned

/-- `.first() is not None` on the active-loan-for-PC query. -/
def pcAlreadyOut (loans : List Loan) (p : Nat) : Bool :=
  loans.any (activePCPred p)

/-- Number of active loans referencing PC id `p`. -/
def activeCountFor (loans : List Loan) (p : Nat) : Nat :=
  loans.countP (activePCPred p)

/-- The PC-exclusivity guard of `new_loan` (lines 683-687): only checked when
`selected_pc_id` is truthy. -/
def pcConflictCheck (loans : List Loan) (pc_id : Option Nat) : Bool :=
  match pc_id with
  | none => false
  | some p => p != 0 && pcAlreadyOut loans p

/-- The PC-exclusivity guard of `edit_loan` (lines 812-816): only checked when
`selected_pc_id` is truthy and differs from the loan's current `pc_id`. -/
def pcConflictCheckEdit (loans : List Loan) (current_pc : Option Nat)
    (pc_id : Option Nat) : Bool :=
  match pc_id with
  | none => false
  | some p => p != 0 && (some p != current_pc) && pcAlreadyOut loans p

/-- "If an Item is selected and item_text is empty, use item name"
(lines 674-678 and 818-822).  Note both call sites are preceded by the
`not item_text` validation, so the `item_text == ""` branch is unreachable in
the routes. -/
def populateItemText (items : List Item) (item_id : Option Nat)
    (item_text : String) : String :=
  match item_id with
  | none => item_text
  | some iid =>
    if iid != 0 && item_text == "" then
      match items.find? (fun it => it.id == iid) with
      | some it => it.name
      | none => item_text
    else item_text

/-- Lexing/parsing of the optional due-date field (lines 662-668 and 802-808):
absent gives no due date, malformed input flashes the invalid-date error. -/
def parseDueDate (fld : Option DateField) : Except LErr (Option Nat) :=
  match fld with
  | none => .ok none
  | some (.valid d) => .ok (some d)
  | some .malformed => .error .invalid

/-- The stock adjustment of `edit_loan` (lines 834-843): only when the loan is
still active and the inventory reference changed, release the truthy old id
(+1) and reserve the truthy new id (-1). -/
def editStockAdjust (items : List Item) (old_returned : Bool)
    (old_iid new_iid : Option Nat) : List Item :=
  if !old_returned && old_iid != new_iid then
    if truthyId new_iid then
      adjust_item_stock
        (if truthyId old_iid then adjust_item_stock items old_iid 1 else items)
        new_iid (-1)
    else
      (if truthyId old_iid then adjust_item_stock items old_iid 1 else items)
  else items

/-- The derived overdue flag computed by `dashboard` (lines 576-580):
`not loan.is_returned and loan.due_date is not None and
loan.due_date.date() < today_local`. -/
def overdue (l : Loan) (today_local : Nat) : Bool :=
  !l.is_returned &&
    (match l.due_date with
     | none => false
     | some d => decide (d < today_local))

/-- Python `str.strip()`: drop leading and trailing whitespace. -/
def stripStr (s : String) : String :=
  String.mk
    (((s.data.dropWhile Char.isWhitespace).reverse.dropWhile
        Char.isWhitespace).reverse)

/-- SQL `lower()` / Python `str.lower()` on the ASCII range, applied
per character. -/
def lowerStr (s : String) : String :=
  String.mk (s.data.map Char.toLower)

/-- `.order_by(Loan.checkout_date.desc()).first()`: an element with maximal
checkout instant (the relative order of equal keys is unspecified in SQL; this
picks the leftmost maximum). -/
def lastByCheckout : List Loan → Option Loan
  | [] => none
  | l :: ls =>
    match lastByCheckout ls with
    | none => some l
    | some m => if l.checkout_date < m.checkout_date then some m else some l

/-- Route `new_loan` (POST branch, lines 648-710): parse the due date, validate
the required fields, populate the item text, check PC exclusivity, then commit
the new active loan together with the stock decrement. -/
def new_loan (db : DB) (actor_id : Nat) (f : LoanForm) (now : Nat)
    (new_id : Nat) : Except LErr DB :=
  match parseDueDate f.due_date_field with
  | .error e => .error e
  | .ok due_date =>
    if f.borrower_name == "" || f.item == "" then .error .invalid
    else if pcConflictCheck db.loans f.pc_id then .error .conflict
    else
      .ok { db with
        loans :=
          { id := new_id
            borrower_name := f.borrower_name
            borrower_phone := f.borrower_phone
            class_info := f.class_info
            item := populateItemText db.items f.item_id f.item
            reason := f.reason
            checkout_date := now
            value := f.value
            due_date := due_date
            return_date := none
            user_id := actor_id
            is_returned := false
            pc_id := f.pc_id
            item_id := f.item_id } :: db.loans,
        items :=
          if truthyId f.item_id then adjust_item_stock db.items f.item_id (-1)
          else db.items }

/-- Route `return_loan` (lines 741-765): 404 when absent, forbidden unless
admin or owner, idempotent no-op when already returned, otherwise flip the flag,
stamp the return instant and release the stock. -/
def return_loan (db : DB) (actor : Actor) (loan_id : Nat) (now : Nat) :
    Except LErr (ReturnOutcome × DB) :=
  match db.loans.find? (fun l => l.id == loan_id) with
  | none => .error .notFound
  | some loan =>
    if !actor.is_admin && !(loan.user_id == actor.user_id) then .error .forbidden
    else if loan.is_returned then .ok (.alreadyReturned, db)
    else
      .ok (.marked,
        { db with
          loans :=
            updateFirstBy (fun l => l.id == loan_id)
              (fun l => { l with is_returned := true, return_date := some now })
              db.loans,
          items :=
            if truthyId loan.item_id then adjust_item_stock db.items loan.item_id 1
            else db.items })

/-- Route `edit_loan` (POST branch, lines 783-848): forbidden unless admin or
owner, re-validate exactly as create, re-check PC exclusivity when the PC
reference changes, rewrite the loan's fields and adjust stock when the
inventory reference of a still-active loan changed. -/
def edit_loan (db : DB) (actor : Actor) (loan_id : Nat) (f : LoanForm) :
    Except LErr DB :=
  match db.loans.find? (fun l => l.id == loan_id) with
  | none => .error .notFound
  | some loan =>
    if !actor.is_admin && !(loan.user_id == actor.user_id) then .error .forbidden
    else if f.borrower_name == "" || f.item == "" then .error .invalid
    else
      match parseDueDate f.due_date_field with
      | .error e => .error e
      | .ok due_date =>
        if pcConflictCheckEdit db.loans loan.pc_id f.pc_id then .error .conflict
        else
          .ok { db with
            loans :=
              updateFirstBy (fun l => l.id == loan_id)
                (fun l =>
                  { l with
                    borrower_name := f.borrower_name
                    borrower_phone := f.borrower_phone
                    class_info := f.class_info
                    item := populateItemText db.items f.item_id f.item
                    reason := f.reason
                    value := f.value
                    due_date := due_date
                    pc_id := f.pc_id
                    item_id := f.item_id })
                db.loans,
            items := editStockAdjust db.items loan.is_returned loan.item_id f.item_id }

/-- Route `delete_loan` (lines 862-873, admin only): release the stock of a
still-active loan, then remove the row.  A returned loan's stock is untouched. -/
def delete_loan (db : DB) (actor : Actor) (loan_id : Nat) : Except LErr DB :=
  if !actor.is_admin then .error .forbidden
  else
    match db.loans.find? (fun l => l.id == loan_id) with
    | none => .error .notFound
    | some loan =>
      .ok { db with
        loans := removeFirstBy (fun l => l.id == loan_id) db.loans,
        items :=
          if !loan.is_returned && truthyId loan.item_id then
            adjust_item_stock db.items loan.item_id 1
          else db.items }

/-- Route `delete_pc` (lines 950-961, admin only): the handler performs no
loaned-out or loan-history check; it simply deletes the row.  The ORM
relationship `PC.loans` has no delete cascade and `loan.pc_id` is nullable, so
the flush nulls out `pc_id` on every referencing loan before deleting the
asset, and the commit succeeds. -/
def delete_pc (db : DB) (actor : Actor) (pc_id : Nat) : Except LErr DB :=
  if !actor.is_admin then .error .forbidden
  else
    match db.pcs.find? (fun asset => asset.id == pc_id) with
    | none => .error .notFound
    | some _ =>
      .ok { db with
        pcs := removeFirstBy (fun asset => asset.id == pc_id) db.pcs,
        loans := db.loans.map
          (fun l => if l.pc_id == some pc_id then { l with pc_id := none } else l) }

/-- Route `api_borrower_last` (lines 611-638): 400 when the stripped name is
blank, else the most recently checked-out loan whose borrower name matches
case-insensitively (`func.lower` on both sides), 404 when none matches. -/
def api_borrower_last (db : DB) (rawName : String) : Except LErr BorrowerLast :=
  if stripStr rawName == "" then .error .invalid
  else
    match lastByCheckout
        (db.loans.filter
          (fun l => lowerStr l.borrower_name == lowerStr (stripStr rawName))) with
    | none => .error .notFound
    | some l => .ok ⟨l.borrower_phone, l.class_info, l.item, l.pc_id⟩

/-- Invariant of claim C2: every stock item's availability is within
`[0, stock_total]`. -/
def StockOk (items : List Item) : Prop :=
  ∀ it ∈ items, 0 ≤ it.stock_available ∧ it.stock_available ≤ it.stock_total

/-- Invariant of claim C1: each PC asset is referenced by at most one active
loan.  Asset primary keys are positive (autoincrement starts at 1) and the
routes treat the id 0 as "no PC selected" (Python truthiness), so the invariant
quantifies over nonzero ids. -/
def PCExclusive (db : DB) : Prop :=
  ∀ p : Nat, p ≠ 0 → activeCountFor db.loans p ≤ 1

/-- One successful ledger operation (the four mutating loan routes). -/
inductive LedgerStep : DB → DB → Prop
  | create (db : DB) (aid : Nat) (f : LoanForm) (now nid : Nat) (db' : DB) :
      new_loan db aid f now nid = .ok db' → LedgerStep db db'
  | ret (db : DB) (actor : Actor) (lid now : Nat) (o : ReturnOutcome) (db' : DB) :
      return_loan db actor lid now = .ok (o, db') → LedgerStep db db'
  | edit (db : DB) (actor : Actor) (lid : Nat) (f : LoanForm) (db' : DB) :
      edit_loan db actor lid f = .ok db' → LedgerStep db db'
  | del (db : DB) (actor : Actor) (lid : Nat) (db' : DB) :
      delete_loan db actor lid = .ok db' → LedgerStep db db'

/-- Reachability by any finite sequence of successful ledger operations. -/
def LedgerReachable : DB → DB → Prop :=
  Relation.ReflTransGen LedgerStep

/-! ### Generic lemmas about the row-update helpers -/

theorem countP_updateFirstBy (p q : α → Bool) (g : α → α) :
    ∀ (xs : List α) (x : α), xs.find? p = some x →
      (updateFirstBy p g xs).countP q + (if q x then 1 else 0)
        = xs.countP q + (if q (g x) then 1 else 0) := by
  intro xs
  induction xs with
  | nil => intro x h; simp at h
  | cons y ys ih =>
    intro x h
    by_cases hp : p y
    · rw [List.find?_cons_of_pos _ hp] at h
      cases h
      simp only [updateFirstBy, if_pos hp, List.countP_cons]
      split_ifs <;> omega
    · rw [List.find?_cons_of_neg _ hp] at h
      simp only [updateFirstBy, if_neg hp, List.countP_cons]
      have := ih x h
      split_ifs at this ⊢ <;> omega

theorem find?_updateFirstBy_self (p : α → Bool) (g : α → α) :
    ∀ (xs : List α) (x : α), xs.find? p = some x → p (g x) = true →
      (updateFirstBy p g xs).find? p = some (g x) := by
  intro xs
  induction xs with
  | nil => intro x h _; simp at h
  | cons y ys ih =>
    intro x h hg
    by_cases hp : p y
    · rw [List.find?_cons_of_pos _ hp] at h
      cases h
      simp only [updateFirstBy, if_pos hp]
      exact List.find?_cons_of_pos _ hg
    · rw [List.find?_cons_of_neg _ hp] at h
      simp only [updateFirstBy, if_neg hp]
      rw [List.find?_cons_of_neg _ hp]
      exact ih x h hg

theorem countP_removeFirstBy_le (p q : α → Bool) :
    ∀ xs : List α, (removeFirstBy p xs).countP q ≤ xs.countP q := by
  intro xs
  induction xs with
  | nil => simp [removeFirstBy]
  | cons y ys ih =>
    by_cases hp : p y
    · simp only [removeFirstBy, if_pos hp, List.countP_cons]
      split_ifs <;> omega
    · simp only [removeFirstBy, if_neg hp, List.countP_cons]
      split_ifs <;> omega

theorem countP_eq_zero_of_any_eq_false (q : α → Bool) :
    ∀ xs : List α, xs.any q = false → xs.countP q = 0 := by
  intro xs
  induction xs with
  | nil => simp
  | cons y ys ih =>
    intro h
    simp only [List.any_cons, Bool.or_eq_false_iff] at h
    simp [List.countP_cons, h.1, ih h.2]

theorem updateFirstBy_eq_self (p : α → Bool) (g : α → α) :
    ∀ (xs : List α) (x : α), xs.find? p = some x → g x = x →
      updateFirstBy p g xs = xs := by
  intro xs
  induction xs with
  | nil => intro x h _; simp at h
  | cons y ys ih =>
    intro x h hg
    by_cases hp : p y
    · rw [List.find?_cons_of_pos _ hp] at h
      cases h
      simp [updateFirstBy, if_pos hp, hg]
    · rw [List.find?_cons_of_neg _ hp] at h
      simp [updateFirstBy, if_neg hp, ih x h hg]

theorem updateFirstBy_of_find?_none (p : α → Bool) (g : α → α) :
    ∀ xs : List α, xs.find? p = none → updateFirstBy p g xs = xs := by
  intro xs
  induction xs with
  | nil => intro _; rfl
  | cons y ys ih =>
    intro h
    rw [List.find?_eq_none] at h
    have hp : ¬ p y := h y (List.mem_cons_self y ys)
    simp only [updateFirstBy, if_neg hp]
    rw [ih]
    rw [List.find?_eq_none]
    exact fun x hx => h x (List.mem_cons_of_mem y hx)

theorem updateFirstBy_updateFirstBy (p : α → Bool) (g h : α → α)
    (hs : ∀ x, p x = true → p (h x) = true) :
    ∀ xs : List α,
      updateFirstBy p g (updateFirstBy p h xs)
        = updateFirstBy p (fun x => g (h x)) xs := by
  intro xs
  induction xs with
  | nil => rfl
  | cons y ys ih =>
    by_cases hp : p y
    · simp [updateFirstBy, if_pos hp, hs y hp]
    · simp [updateFirstBy, if_neg hp, ih]

theorem mem_updateFirstBy (p : α → Bool) (g : α → α) :
    ∀ (xs : List α) (x : α), x ∈ updateFirstBy p g xs →
      x ∈ xs ∨ ∃ y ∈ xs, x = g y := by
  intro xs
  induction xs with
  | nil => intro x h; simp [updateFirstBy] at h
  | cons y ys ih =>
    intro x h
    by_cases hp : p y
    · simp only [updateFirstBy, if_pos hp, List.mem_cons] at h
      rcases h with h | h
      · exact Or.inr ⟨y, List.mem_cons_self y ys, h⟩
      · exact Or.inl (List.mem_cons_of_mem y h)
    · simp only [updateFirstBy, if_neg hp, List.mem_cons] at h
      rcases h with h | h
      · exact Or.inl (h ▸ List.mem_cons_self y ys)
      · rcases ih x h with h' | ⟨z, hz, hzx⟩
        · exact Or.inl (List.mem_cons_of_mem y h')
        · exact Or.inr ⟨z, List.mem_cons_of_mem y hz, hzx⟩

theorem lastByCheckout_mem :
    ∀ (xs : List Loan) (x : Loan), lastByCheckout xs = some x → x ∈ xs := by
  intro xs
  induction xs with
  | nil => intro x h; simp [lastByCheckout] at h
  | cons y ys ih =>
    intro x h
    cases hm : lastByCheckout ys with
    | none =>
      simp only [lastByCheckout, hm] at h
      cases h
      exact List.mem_cons_self y ys
    | some m =>
      simp only [lastByCheckout, hm] at h
      split_ifs at h
      · cases h; exact List.mem_cons_of_mem y (ih _ hm)
      · cases h; exact List.mem_cons_self y ys

theorem lastByCheckout_eq_none_iff :
    ∀ xs : List Loan, lastByCheckout xs = none ↔ xs = [] := by
  intro xs
  cases xs with
  | nil => simp [lastByCheckout]
  | cons y ys =>
    constructor
    · intro h
      exfalso
      cases hm : lastByCheckout ys with
      | none => simp [lastByCheckout, hm] at h
      | some m =>
        simp only [lastByCheckout, hm] at h
        split_ifs at h
    · intro h; simp at h

theorem lastByCheckout_ge :
    ∀ (xs : List Loan) (x : Loan), lastByCheckout xs = some x →
      ∀ y ∈ xs, y.checkout_date ≤ x.checkout_date := by
  intro xs
  induction xs with
  | nil => intro x h; simp [lastByCheckout] at h
  | cons z zs ih =>
    intro x h y hy
    cases hm : lastByCheckout zs with
    | none =>
      simp only [lastByCheckout, hm] at h
      cases h
      have hz : zs = [] := (lastByCheckout_eq_none_iff zs).mp hm
      subst hz
      rcases List.mem_cons.mp hy with rfl | hy'
      · exact le_refl _
      · simp at hy'
    | some m =>
      simp only [lastByCheckout, hm] at h
      split_ifs at h with hlt
      · cases h
        rcases List.mem_cons.mp hy with rfl | hy'
        · exact le_of_lt hlt
        · exact ih _ hm y hy'
      · cases h
        rcases List.mem_cons.mp hy with rfl | hy'
        · exact le_refl _
        · exact le_trans (ih _ hm y hy') (le_of_not_lt hlt)

/-! ### Stock-bound lemmas -/

theorem StockOk_adjust (items : List Item) (oid : Option Nat) (d : Int)
    (h : StockOk items) : StockOk (adjust_item_stock items oid d) := by
  cases oid with
  | none => exact h
  | some iid =>
    simp only [adjust_item_stock]
    split_ifs with h0
    · exact h
    · intro it hit
      rcases mem_updateFirstBy _ _ _ _ hit with hmem | ⟨y, hy, rfl⟩
      · exact h it hmem
      · have hb := h y hy
        have ht : (0 : Int) ≤ y.stock_total := le_trans hb.1 hb.2
        constructor
        · show (0 : Int) ≤ max 0 (min (y.stock_available + d) y.stock_total)
          exact le_max_left 0 _
        · show max 0 (min (y.stock_available + d) y.stock_total) ≤ y.stock_total
          exact max_le ht (min_le_right _ _)

theorem StockOk_editStockAdjust (items : List Item) (b : Bool)
    (o n : Option Nat) (h : StockOk items) :
    StockOk (editStockAdjust items b o n) := by
  unfold editStockAdjust
  split_ifs with h1 h2 h3 h4 <;>
    first
      | exact h
      | exact StockOk_adjust _ _ _ h
      | exact StockOk_adjust _ _ _ (StockOk_adjust _ _ _ h)

theorem stockOk_new_loan (db : DB) (aid : Nat) (f : LoanForm) (now nid : Nat)
    (db' : DB) (h : new_loan db aid f now nid = .ok db')
    (hs : StockOk db.items) : StockOk db'.items := by
  unfold new_loan at h
  split at h
  · cases h
  · split_ifs at h with hval hconf htr <;> cases h
    · exact StockOk_adjust _ _ _ hs
    · exact hs

theorem stockOk_return_loan (db : DB) (actor : Actor) (lid now : Nat)
    (o : ReturnOutcome) (db' : DB)
    (h : return_loan db actor lid now = .ok (o, db'))
    (hs : StockOk db.items) : StockOk db'.items := by
  unfold return_loan at h
  split at h
  · cases h
  · split_ifs at h with hforb hret htr <;> cases h <;>
      first
        | exact hs
        | exact StockOk_adjust _ _ _ hs

theorem stockOk_edit_loan (db : DB) (actor : Actor) (lid : Nat) (f : LoanForm)
    (db' : DB) (h : edit_loan db actor lid f = .ok db')
    (hs : StockOk db.items) : StockOk db'.items := by
  unfold edit_loan at h
  split at h
  · cases h
  · split_ifs at h with hforb hval hconf <;> try split at h
    all_goals cases h
    exact StockOk_editStockAdjust _ _ _ _ hs

theorem stockOk_delete_loan (db : DB) (actor : Actor) (lid : Nat) (db' : DB)
    (h : delete_loan db actor lid = .ok db') (hs : StockOk db.items) :
    StockOk db'.items := by
  unfold delete_loan at h
  split_ifs at h with hadm
  all_goals try split at h
  all_goals try split_ifs at h with htr
  all_goals cases h
  all_goals
    first
      | exact hs
      | exact StockOk_adjust _ _ _ hs

/-! ### PC-exclusivity lemmas -/

theorem activeCount_eq_zero (loans : List Loan) (p : Nat)
    (h : pcAlreadyOut loans p = false) : activeCountFor loans p = 0 := by
  unfold pcAlreadyOut at h
  unfold activeCountFor
  exact countP_eq_zero_of_any_eq_false _ _ h

theorem pcexcl_cons (loans : List Loan) (R : Loan) (p : Nat)
    (hcount : activeCountFor loans p ≤ 1)
    (hzero : R.pc_id = some p → activeCountFor loans p = 0) :
    activeCountFor (R :: loans) p ≤ 1 := by
  unfold activeCountFor at hcount hzero ⊢
  rw [List.countP_cons]
  by_cases hR : activePCPred p R = true
  · have hpc : R.pc_id = some p := by
      unfold activePCPred at hR
      exact beq_iff_eq.mp (Bool.and_eq_true_iff.mp hR).1
    rw [hzero hpc, if_pos hR]
  · rw [if_neg hR]
    omega

theorem pcexcl_update (pid : Loan → Bool) (g : Loan → Loan)
    (loans : List Loan) (loan : Loan) (hfind : loans.find? pid = some loan)
    (p : Nat) (hcount : activeCountFor loans p ≤ 1)
    (hkeep : activePCPred p (g loan) = true → activePCPred p loan = false →
      activeCountFor loans p = 0) :
    activeCountFor (updateFirstBy pid g loans) p ≤ 1 := by
  have hkey := countP_updateFirstBy pid (activePCPred p) g loans loan hfind
  unfold activeCountFor at hcount hkeep ⊢
  cases hg : activePCPred p (g loan) <;> cases hl : activePCPred p loan
  · rw [hg, hl] at hkey
    simp at hkey
    omega
  · rw [hg, hl] at hkey
    simp at hkey
    omega
  · rw [hg, hl] at hkey
    simp at hkey
    have h0 := hkeep hg hl
    omega
  · rw [hg, hl] at hkey
    simp at hkey
    omega

theorem pcexcl_new_loan (db : DB) (aid : Nat) (f : LoanForm) (now nid : Nat)
    (db' : DB) (h : new_loan db aid f now nid = .ok db')
    (hx : PCExclusive db) : PCExclusive db' := by
  unfold new_loan at h
  split at h
  · cases h
  · split_ifs at h with hval hconf htr <;> cases h
    all_goals (
      intro p hp
      refine pcexcl_cons db.loans _ p (hx p hp) ?_
      intro hfp
      have hfp' : f.pc_id = some p := hfp
      rw [hfp'] at hconf
      have hout : pcAlreadyOut db.loans p = false := by
        cases hout : pcAlreadyOut db.loans p
        · rfl
        · exact absurd (by simp [pcConflictCheck, hout, bne_iff_ne, hp]) hconf
      exact activeCount_eq_zero db.loans p hout)

theorem pcexcl_return_loan (db : DB) (actor : Actor) (lid now : Nat)
    (o : ReturnOutcome) (db' : DB)
    (h : return_loan db actor lid now = .ok (o, db'))
    (hx : PCExclusive db) : PCExclusive db' := by
  unfold return_loan at h
  split at h
  · cases h
  · rename_i loan heq
    split_ifs at h with hforb hret htr <;> cases h
    all_goals
      first
        | exact hx
        | (intro p hp
           refine pcexcl_update _ _ db.loans loan heq p (hx p hp) ?_
           intro hg hl
           exact absurd hg (by simp [activePCPred]))

theorem pcexcl_edit_loan (db : DB) (actor : Actor) (lid : Nat) (f : LoanForm)
    (db' : DB) (h : edit_loan db actor lid f = .ok db')
    (hx : PCExclusive db) : PCExclusive db' := by
  unfold edit_loan at h
  split at h
  · cases h
  · rename_i loan heq
    split_ifs at h with hforb hval hconf <;> try split at h
    all_goals cases h
    intro p hp
    refine pcexcl_update _ _ db.loans loan heq p (hx p hp) ?_
    intro hg hl
    have hg' : (f.pc_id == some p && !loan.is_returned) = true := hg
    have hfp : f.pc_id = some p := beq_iff_eq.mp (Bool.and_eq_true_iff.mp hg').1
    have hret : (!loan.is_returned) = true := (Bool.and_eq_true_iff.mp hg').2
    have hl' : (loan.pc_id == some p && !loan.is_returned) = false := hl
    have hpc : (loan.pc_id == some p) = false := by
      cases hb : loan.pc_id == some p
      · rfl
      · rw [hb, hret] at hl'
        cases hl'
    have hne : some p ≠ loan.pc_id :=
      fun c => by rw [beq_eq_false_iff_ne] at hpc; exact hpc c.symm
    rw [hfp] at hconf
    have hout : pcAlreadyOut db.loans p = false := by
      cases hout : pcAlreadyOut db.loans p
      · rfl
      · exact absurd
          (by simp [pcConflictCheckEdit, hout, bne_iff_ne, hp, hne]) hconf
    exact activeCount_eq_zero db.loans p hout

theorem pcexcl_delete_loan (db : DB) (actor : Actor) (lid : Nat) (db' : DB)
    (h : delete_loan db actor lid = .ok db') (hx : PCExclusive db) :
    PCExclusive db' := by
  unfold delete_loan at h
  split_ifs at h with hadm
  all_goals try split at h
  all_goals cases h
  intro p hp
  have hc := hx p hp
  unfold activeCountFor at hc ⊢
  exact le_trans (countP_removeFirstBy_le _ _ _) hc

theorem pcexcl_step (db db' : DB) (h : LedgerStep db db')
    (hx : PCExclusive db) : PCExclusive db' := by
  cases h <;> rename_i hop <;>
    first
      | exact pcexcl_new_loan _ _ _ _ _ _ hop hx
      | exact pcexcl_return_loan _ _ _ _ _ _ hop hx
      | exact pcexcl_edit_loan _ _ _ _ _ hop hx
      | exact pcexcl_delete_loan _ _ _ _ hop hx

theorem parseDueDate_ok (fld : Option DateField)
    (h : fld ≠ some DateField.malformed) :
    ∃ dd, parseDueDate fld = Except.ok dd := by
  cases fld with
  | none => exact ⟨none, rfl⟩
  | some df =>
    cases df with
    | valid d => exact ⟨some d, rfl⟩
    | malformed => exact absurd rfl h

/-! ### Concrete fixtures -/

/-- A registered PC asset. -/
def pcOK1 : PC := { id := 1, ok_number := "OK-001", model_type := "Dell", notes := "" }

/-- An active loan holding PC 1. -/
def loanPC1 : Loan :=
  { id := 1, borrower_name := "Ola", borrower_phone := "", class_info := "",
    item := "PC", reason := "", checkout_date := 10, value := "",
    due_date := none, return_date := none, user_id := 7, is_returned := false,
    pc_id := some 1, item_id := none }

/-- A second active loan, with no PC reference. -/
def loanPC2 : Loan :=
  { id := 2, borrower_name := "Kari", borrower_phone := "", class_info := "",
    item := "Mus", reason := "", checkout_date := 11, value := "",
    due_date := none, return_date := none, user_id := 7, is_returned := false,
    pc_id := none, item_id := none }

/-- State with PC 1 loaned out to loan 1 and a PC-free loan 2. -/
def dbPC : DB := { items := [], pcs := [pcOK1], loans := [loanPC1, loanPC2] }

/-- A form that targets the already-reserved PC 1. -/
def formPC : LoanForm :=
  { borrower_name := "Kari", borrower_phone := "", class_info := "", item := "PC",
    reason := "", value := "", due_date_field := none, pc_id := some 1,
    item_id := none }

theorem pcexcl_dbPC : PCExclusive dbPC := by
  intro p hp
  show List.countP (activePCPred p) [loanPC1, loanPC2] ≤ 1
  simp only [List.countP_cons, List.countP_nil, activePCPred, loanPC1, loanPC2]
  split_ifs <;> simp_all

/-! ### Claim theorems -/

/-- Claim C1: at most one active loan references a given PC at any time.
`new_loan` with a (truthy) `pc_id` fails with `Conflict` when some active loan
already references that PC; `edit_loan` changing the PC reference to a
different PC fails with `Conflict` when an active loan already references it
(the edited loan itself cannot be such a witness, since its `pc_id` differs);
and every single ledger step, hence every reachable state, preserves
`PCExclusive`. -/
theorem C1_pc_exclusive :
    (∀ (db : DB) (aid : Nat) (f : LoanForm) (now nid p : Nat),
        f.borrower_name ≠ "" → f.item ≠ "" →
        f.due_date_field ≠ some DateField.malformed →
        f.pc_id = some p → p ≠ 0 → pcAlreadyOut db.loans p = true →
        new_loan db aid f now nid = .error .conflict)
    ∧ (∀ (db : DB) (actor : Actor) (lid : Nat) (f : LoanForm) (loan : Loan)
        (p : Nat),
        db.loans.find? (fun l => l.id == lid) = some loan →
        (actor.is_admin = true ∨ loan.user_id = actor.user_id) →
        f.borrower_name ≠ "" → f.item ≠ "" →
        f.due_date_field ≠ some DateField.malformed →
        f.pc_id = some p → p ≠ 0 → some p ≠ loan.pc_id →
        pcAlreadyOut db.loans p = true →
        edit_loan db actor lid f = .error .conflict)
    ∧ (∀ db db' : DB, LedgerStep db db' → PCExclusive db → PCExclusive db')
    ∧ (∀ db db' : DB, LedgerReachable db db' → PCExclusive db → PCExclusive db') := by
  refine ⟨?_, ?_, ?_, ?_⟩
  · intro db aid f now nid p hb hi hd hfp hp hout
    obtain ⟨dd, hdd⟩ := parseDueDate_ok f.due_date_field hd
    unfold new_loan
    rw [hdd, hfp]
    simp [pcConflictCheck, hb, hi, hp, hout, bne_iff_ne]
  · intro db actor lid f loan p hfind hauth hb hi hd hfp hp hne hout
    obtain ⟨dd, hdd⟩ := parseDueDate_ok f.due_date_field hd
    have hforb : (!actor.is_admin && !(loan.user_id == actor.user_id)) = false := by
      rcases hauth with ha | ho
      · simp [ha]
      · simp [ho]
    unfold edit_loan
    rw [hfind, hfp]
    simp [hforb, hb, hi, hdd, pcConflictCheckEdit, hp, hout, bne_iff_ne, hne]
  · exact fun db db' h hx => pcexcl_step db db' h hx
  · intro db db' h hx
    induction h with
    | refl => exact hx
    | tail hab hbc ih => exact pcexcl_step _ _ hbc ih

/-- Witness for C1 at concrete states: creating against the loaned-out PC 1
conflicts, editing loan 2 onto PC 1 conflicts, and the invariant holds in every
state reachable from `dbPC`. -/
theorem C1_pc_exclusive_witness :
    new_loan dbPC 7 formPC 20 3 = .error .conflict
    ∧ edit_loan dbPC ⟨7, true⟩ 2 formPC = .error .conflict
    ∧ PCExclusive dbPC := by
  refine ⟨?_, ?_, ?_⟩
  · exact C1_pc_exclusive.1 dbPC 7 formPC 20 3 1 (by decide) (by decide)
      (by decide) rfl (by decide) (by decide)
  · exact C1_pc_exclusive.2.1 dbPC ⟨7, true⟩ 2 formPC loanPC2 1 (by decide)
      (Or.inl rfl) (by decide) (by decide) (by decide) rfl (by decide)
      (by decide) (by decide)
  · exact C1_pc_exclusive.2.2.2 dbPC dbPC Relation.ReflTransGen.refl pcexcl_dbPC

/-- Claim C2: `adjust_item_stock` is total and clamps into `[0, stock_total]`,
so the bound `0 ≤ available ≤ total` is preserved by the clamp itself and by
every successful ledger operation. -/
theorem C2_stock_bounds :
    (∀ (items : List Item) (oid : Option Nat) (d : Int),
        StockOk items → StockOk (adjust_item_stock items oid d))
    ∧ (∀ (db : DB) (aid : Nat) (f : LoanForm) (now nid : Nat) (db' : DB),
        new_loan db aid f now nid = .ok db' →
        StockOk db.items → StockOk db'.items)
    ∧ (∀ (db : DB) (actor : Actor) (lid now : Nat) (o : ReturnOutcome) (db' : DB),
        return_loan db actor lid now = .ok (o, db') →
        StockOk db.items → StockOk db'.items)
    ∧ (∀ (db : DB) (actor : Actor) (lid : Nat) (f : LoanForm) (db' : DB),
        edit_loan db actor lid f = .ok db' →
        StockOk db.items → StockOk db'.items)
    ∧ (∀ (db : DB) (actor : Actor) (lid : Nat) (db' : DB),
        delete_loan db actor lid = .ok db' →
        StockOk db.items → StockOk db'.items) :=
  ⟨fun items oid d h => StockOk_adjust items oid d h,
   fun db aid f now nid db' h hs => stockOk_new_loan db aid f now nid db' h hs,
   fun db actor lid now o db' h hs => stockOk_return_loan db actor lid now o db' h hs,
   fun db actor lid f db' h hs => stockOk_edit_loan db actor lid f db' h hs,
   fun db actor lid db' h hs => stockOk_delete_loan db actor lid db' h hs⟩

/-- Witness for C2: a concrete over-large decrement is clamped and the bound
survives. -/
theorem adjust_minus_one_find (items : List Item) (iid : Nat) (it : Item)
    (h0 : iid ≠ 0) (hfind : items.find? (fun j => j.id == iid) = some it)
    (h1 : 1 ≤ it.stock_available) (h2 : it.stock_available ≤ it.stock_total) :
    (adjust_item_stock items (some iid) (-1)).find? (fun j => j.id == iid)
      = some { it with stock_available := it.stock_available - 1 } := by
  have hid : (it.id == iid) = true := by
    have h := List.find?_some hfind
    exact h
  simp only [adjust_item_stock]
  rw [if_neg (by simp [h0])]
  have harith :
      max 0 (min (it.stock_available + (-1)) it.stock_total)
        = it.stock_available - 1 := by
    rw [min_eq_left (by omega), max_eq_right (by omega)]
    omega
  have hfu := find?_updateFirstBy_self (fun j => j.id == iid)
    (fun j => { j with
      stock_available := max 0 (min (j.stock_available + (-1)) j.stock_total) })
    items it hfind hid
  rw [hfu]
  show some ({ it with
      stock_available :=
        max 0 (min (it.stock_available + (-1)) it.stock_total) } : Item)
    = some ({ it with stock_available := it.stock_available - 1 } : Item)
  rw [harith]

theorem adjust_roundtrip (items : List Item) (iid : Nat) (it : Item)
    (h0 : iid ≠ 0) (hfind : items.find? (fun j => j.id == iid) = some it)
    (h1 : 1 ≤ it.stock_available) (h2 : it.stock_available ≤ it.stock_total) :
    adjust_item_stock (adjust_item_stock items (some iid) (-1)) (some iid) 1
      = items := by
  simp only [adjust_item_stock]
  rw [if_neg (by simp [h0]), if_neg (by simp [h0])]
  rw [updateFirstBy_updateFirstBy (fun j => j.id == iid)
    (fun j => { j with
      stock_available := max 0 (min (j.stock_available + 1) j.stock_total) })
    (fun j => { j with
      stock_available := max 0 (min (j.stock_available + (-1)) j.stock_total) })
    (fun j hj => hj) items]
  refine updateFirstBy_eq_self _ _ items it hfind ?_
  show ({ it with
      stock_available :=
        max 0 (min (max 0 (min (it.stock_available + (-1)) it.stock_total) + 1)
          it.stock_total) } : Item) = it
  have harith :
      max 0 (min (max 0 (min (it.stock_available + (-1)) it.stock_total) + 1)
        it.stock_total) = it.stock_available := by
    omega
  rw [harith]

theorem new_loan_ok (db : DB) (aid : Nat) (f : LoanForm) (now nid : Nat)
    (dd : Option Nat) (hdd : parseDueDate f.due_date_field = .ok dd)
    (hval : (f.borrower_name == "" || f.item == "") = false)
    (hconf : pcConflictCheck db.loans f.pc_id = false) :
    new_loan db aid f now nid = .ok { db with
      loans :=
        { id := nid
          borrower_name := f.borrower_name
          borrower_phone := f.borrower_phone
          class_info := f.class_info
          item := populateItemText db.items f.item_id f.item
          reason := f.reason
          checkout_date := now
          value := f.value
          due_date := dd
          return_date := none
          user_id := aid
          is_returned := false
          pc_id := f.pc_id
          item_id := f.item_id } :: db.loans,
      items :=
        if truthyId f.item_id then adjust_item_stock db.items f.item_id (-1)
        else db.items } := by
  unfold new_loan
  split
  · rename_i e heq
    rw [hdd] at heq
    cases heq
  · rename_i dd' heq
    rw [hdd] at heq
    cases heq
    rw [if_neg (by simp [hval]), if_neg (by simp [hconf])]

theorem return_loan_ok (db : DB) (actor : Actor) (lid now : Nat) (loan : Loan)
    (hfind : db.loans.find? (fun l => l.id == lid) = some loan)
    (hforb : (!actor.is_admin && !(loan.user_id == actor.user_id)) = false)
    (hret : loan.is_returned = false) :
    return_loan db actor lid now = .ok (.marked, { db with
      loans :=
        updateFirstBy (fun l => l.id == lid)
          (fun l => { l with is_returned := true, return_date := some now })
          db.loans,
      items :=
        if truthyId loan.item_id then adjust_item_stock db.items loan.item_id 1
        else db.items }) := by
  unfold return_loan
  split
  · rename_i heq
    rw [hfind] at heq
    cases heq
  · rename_i loan' heq
    rw [hfind] at heq
    cases heq
    rw [if_neg (by simp [hforb]), if_neg (by simp [hret])]

theorem delete_loan_ok (db : DB) (actor : Actor) (lid : Nat) (loan : Loan)
    (hadm : actor.is_admin = true)
    (hfind : db.loans.find? (fun l => l.id == lid) = some loan) :
    delete_loan db actor lid = .ok { db with
      loans := removeFirstBy (fun l => l.id == lid) db.loans,
      items :=
        if !loan.is_returned && truthyId loan.item_id then
          adjust_item_stock db.items loan.item_id 1
        else db.items } := by
  unfold delete_loan
  rw [if_neg (by simp [hadm])]
  split
  · rename_i heq
    rw [hfind] at heq
    cases heq
  · rename_i loan' heq
    rw [hfind] at heq
    cases heq
    rfl

theorem C2_stock_bounds_witness :
    StockOk [⟨1, "Lader", 3, 2⟩]
    ∧ StockOk (adjust_item_stock [⟨1, "Lader", 3, 2⟩] (some 1) (-5)) :=
  ⟨by unfold StockOk; decide,
   C2_stock_bounds.1 [⟨1, "Lader", 3, 2⟩] (some 1) (-5) (by unfold StockOk; decide)⟩

/-- A stock item with nothing available: the clamp absorbs the decrement. -/
def itemC3 : Item := { id := 1, name := "Lader", stock_total := 3, stock_available := 0 }

/-- State for the C3 counterexample. -/
def dbC3 : DB := { items := [itemC3], pcs := [], loans := [] }

/-- A valid loan form referencing stock item 1. -/
def formC3 : LoanForm :=
  { borrower_name := "Ola", borrower_phone := "", class_info := "",
    item := "Lader", reason := "", value := "", due_date_field := none,
    pc_id := none, item_id := some 1 }

/-- Counterexample to C3 as stated ("for every starting value of available"):
with `available = 0` the clamp absorbs the decrement, so `createLoan` does not
decrease `available` by 1, and the create-then-return cycle nets +1, not 0. -/
theorem C3_counterexample :
    ∃ db1 db2 : DB,
      new_loan dbC3 7 formC3 100 1 = .ok db1
      ∧ db1.items = [(⟨1, "Lader", 3, 0⟩ : Item)]
      ∧ return_loan db1 ⟨7, true⟩ 1 200 = .ok (.marked, db2)
      ∧ db2.items = [(⟨1, "Lader", 3, 1⟩ : Item)] := by
  refine ⟨_, _, rfl, rfl, rfl, rfl⟩

/-- Claim C3 (amended): when the referenced item's `available` lies in
`[1, total]` at creation time — so neither clamp fires — `createLoan`
decreases it by exactly 1, and the paired `returnLoan` (or `deleteLoan` while
the loan is active) restores exactly the original stock list: the cycle is net
zero.  (At the boundary `available = 0` the clamp absorbs the decrement, per
the counterexample.) -/
theorem C3_round_trip :
    ∀ (db : DB) (aid : Nat) (f : LoanForm) (now nid now2 iid : Nat)
      (it : Item) (actor actor2 : Actor),
      f.borrower_name ≠ "" → f.item ≠ "" →
      f.due_date_field ≠ some DateField.malformed →
      pcConflictCheck db.loans f.pc_id = false →
      f.item_id = some iid → iid ≠ 0 →
      db.items.find? (fun j => j.id == iid) = some it →
      1 ≤ it.stock_available → it.stock_available ≤ it.stock_total →
      (actor.is_admin = true ∨ actor.user_id = aid) →
      actor2.is_admin = true →
      ∃ db1 : DB,
        new_loan db aid f now nid = .ok db1
        ∧ db1.items.find? (fun j => j.id == iid)
            = some { it with stock_available := it.stock_available - 1 }
        ∧ (∃ db2 : DB, return_loan db1 actor nid now2 = .ok (.marked, db2)
            ∧ db2.items = db.items)
        ∧ (∃ db3 : DB, delete_loan db1 actor2 nid = .ok db3
            ∧ db3.items = db.items) := by
  intro db aid f now nid now2 iid it actor actor2 hb hi hd hconf hfi h0 hfind
    h1 h2 hauth hadm
  obtain ⟨dd, hdd⟩ := parseDueDate_ok f.due_date_field hd
  have hval : (f.borrower_name == "" || f.item == "") = false := by
    simp [hb, hi]
  have htr : truthyId (some iid) = true := by simp [truthyId, h0]
  refine ⟨{ db with
    loans :=
      { id := nid
        borrower_name := f.borrower_name
        borrower_phone := f.borrower_phone
        class_info := f.class_info
        item := populateItemText db.items (some iid) f.item
        reason := f.reason
        checkout_date := now
        value := f.value
        due_date := dd
        return_date := none
        user_id := aid
        is_returned := false
        pc_id := f.pc_id
        item_id := some iid } :: db.loans,
    items := adjust_item_stock db.items (some iid) (-1) }, ?_, ?_, ?_, ?_⟩
  · rw [new_loan_ok db aid f now nid dd hdd hval hconf, hfi, if_pos htr]
  · exact adjust_minus_one_find db.items iid it h0 hfind h1 h2
  · refine ⟨_, return_loan_ok _ actor nid now2 _
      (List.find?_cons_of_pos db.loans (by simp)) ?_ rfl, ?_⟩
    · rcases hauth with ha | ho
      · simp [ha]
      · show (!actor.is_admin && !(aid == actor.user_id)) = false
        simp [ho]
    · show (if truthyId (some iid)
          then adjust_item_stock
            (adjust_item_stock db.items (some iid) (-1)) (some iid) 1
          else adjust_item_stock db.items (some iid) (-1)) = db.items
      rw [if_pos htr]
      exact adjust_roundtrip db.items iid it h0 hfind h1 h2
  · refine ⟨_, delete_loan_ok _ actor2 nid _ hadm
      (List.find?_cons_of_pos db.loans (by simp)), ?_⟩
    show (if !false && truthyId (some iid)
        then adjust_item_stock
          (adjust_item_stock db.items (some iid) (-1)) (some iid) 1
        else adjust_item_stock db.items (some iid) (-1)) = db.items
    rw [if_pos (by simp [htr])]
    exact adjust_roundtrip db.items iid it h0 hfind h1 h2

/-- Witness for the amended C3 at a concrete state (`available = 2`). -/
theorem C3_round_trip_witness :
    ∃ db1 : DB,
      new_loan { items := [⟨1, "Lader", 3, 2⟩], pcs := [], loans := [] }
          7 formC3 100 1 = .ok db1
      ∧ db1.items.find? (fun j => j.id == 1)
          = some ⟨1, "Lader", 3, 1⟩
      ∧ (∃ db2 : DB, return_loan db1 ⟨7, true⟩ 1 200 = .ok (.marked, db2)
          ∧ db2.items = [⟨1, "Lader", 3, 2⟩])
      ∧ (∃ db3 : DB, delete_loan db1 ⟨9, true⟩ 1 = .ok db3
          ∧ db3.items = [⟨1, "Lader", 3, 2⟩]) :=
  C3_round_trip { items := [⟨1, "Lader", 3, 2⟩], pcs := [], loans := [] }
    7 formC3 100 1 200 1 ⟨1, "Lader", 3, 2⟩ ⟨7, true⟩ ⟨9, true⟩
    (by decide) (by decide) (by decide) (by decide) rfl (by decide)
    (by decide) (by decide) (by decide) (Or.inl rfl) rfl

theorem bool_eq_false {b : Bool} (h : ¬ b = true) : b = false := by
  cases b
  · rfl
  · exact absurd rfl h

/-- Claim C4: the claim says `delete_pc` fails with `Conflict` when the PC is
loaned out or referenced by loan history.  The code performs no such check:
with PC 1 loaned out on an active loan, `delete_pc` succeeds, deletes the
asset, and nulls the loan's reference.  (The intended messages "Kan ikke
slette PC som er utlånt." / "Kan ikke slette PC som har historikk..." exist in
the translation table but are never flashed.) -/
theorem C4_delete_pc_no_conflict :
    pcAlreadyOut dbPC.loans 1 = true
    ∧ delete_pc dbPC ⟨7, true⟩ 1
        = .ok { items := [], pcs := [],
                loans := [{ loanPC1 with pc_id := none }, loanPC2] } :=
  ⟨rfl, rfl⟩

/-- Stock item for the C5 evidence. -/
def itemC5 : Item := { id := 1, name := "Lader", stock_total := 3, stock_available := 3 }

/-- An existing active loan owned by user 7, for the edit path of C5. -/
def loanC5 : Loan :=
  { id := 1, borrower_name := "Kari", borrower_phone := "", class_info := "",
    item := "Mus", reason := "", checkout_date := 10, value := "",
    due_date := none, return_date := none, user_id := 7, is_returned := false,
    pc_id := none, item_id := none }

/-- State for the C5 evidence. -/
def dbC5 : DB := { items := [itemC5], pcs := [], loans := [loanC5] }

/-- A form with a StockItem selected but the free-text item left blank. -/
def formC5 : LoanForm :=
  { borrower_name := "Ola", borrower_phone := "", class_info := "", item := "",
    reason := "", value := "", due_date_field := none, pc_id := none,
    item_id := some 1 }

/-- Claim C5: the claim (and the code's own comment "If an Item is selected
and item_text is empty, use item name") says a blank item text is populated
from the referenced StockItem's name.  In the code the required-field check
runs first, so both `new_loan` and `edit_loan` reject the request with
`Invalid` and the populate branch is unreachable. -/
theorem C5_blank_item_text_rejected :
    (dbC5.items.find? (fun j => j.id == 1)).map (fun it => it.name)
      = some "Lader"
    ∧ new_loan dbC5 7 formC5 100 2 = .error .invalid
    ∧ edit_loan dbC5 ⟨7, false⟩ 1 { formC5 with borrower_name := "Kari" }
        = .error .invalid :=
  ⟨rfl, rfl, rfl⟩

theorem return_loan_already (db : DB) (actor : Actor) (lid now : Nat)
    (loan : Loan)
    (hfind : db.loans.find? (fun l => l.id == lid) = some loan)
    (hforb : (!actor.is_admin && !(loan.user_id == actor.user_id)) = false)
    (hret : loan.is_returned = true) :
    return_loan db actor lid now = .ok (.alreadyReturned, db) := by
  unfold return_loan
  split
  · rename_i heq
    rw [hfind] at heq
    cases heq
  · rename_i loan' heq
    rw [hfind] at heq
    cases heq
    rw [if_neg (by simp [hforb]), if_pos hret]

/-- Claim C6: `return_loan` is idempotent — whenever a call succeeds, a second
call by the same actor is a reported no-op (`alreadyReturned`) that returns
exactly the same state, so neither the returned flag, the return timestamp nor
any stock count changes. -/
theorem C6_return_idempotent :
    ∀ (db : DB) (actor : Actor) (lid now now2 : Nat) (o : ReturnOutcome)
      (db1 : DB),
      return_loan db actor lid now = .ok (o, db1) →
      return_loan db1 actor lid now2 = .ok (.alreadyReturned, db1) := by
  intro db actor lid now now2 o db1 h
  unfold return_loan at h
  split at h
  · cases h
  · rename_i loan heq
    split_ifs at h with hforb hret htr <;> cases h
    all_goals
      first
        | exact return_loan_already db actor lid now2 loan heq
            (bool_eq_false hforb) hret
        | (have hid : (loan.id == lid) = true := by
             have hh := List.find?_some heq
             exact hh
           exact return_loan_already _ actor lid now2
             ((fun l => { l with is_returned := true, return_date := some now })
               loan)
             (find?_updateFirstBy_self (fun l => l.id == lid)
               (fun l => { l with is_returned := true, return_date := some now })
               db.loans loan heq hid)
             (bool_eq_false hforb) rfl)

/-- Witness for C6: returning loan 1 of `dbPC` twice; the second call is the
reported no-op on the unchanged state. -/
theorem C6_return_idempotent_witness :
    ∃ db1 : DB,
      return_loan dbPC ⟨7, true⟩ 1 50 = .ok (.marked, db1)
      ∧ return_loan db1 ⟨7, true⟩ 1 60 = .ok (.alreadyReturned, db1) := by
  refine ⟨_, rfl, ?_⟩
  exact C6_return_idempotent dbPC ⟨7, true⟩ 1 50 60 .marked _ rfl

/-- Claim C7: operations on an already-returned loan never touch stock:
`edit_loan` (with any form, including one changing the StockItem reference)
and `delete_loan` leave the items table exactly as it was. -/
theorem C7_returned_loan_stock_frame :
    (∀ (db : DB) (actor : Actor) (lid : Nat) (f : LoanForm) (loan : Loan)
        (db' : DB),
        db.loans.find? (fun l => l.id == lid) = some loan →
        loan.is_returned = true →
        edit_loan db actor lid f = .ok db' → db'.items = db.items)
    ∧ (∀ (db : DB) (actor : Actor) (lid : Nat) (loan : Loan) (db' : DB),
        db.loans.find? (fun l => l.id == lid) = some loan →
        loan.is_returned = true →
        delete_loan db actor lid = .ok db' → db'.items = db.items) := by
  constructor
  · intro db actor lid f loan db' hfind hret h
    unfold edit_loan at h
    split at h
    · cases h
    · rename_i loan' heq
      rw [hfind] at heq
      cases heq
      split_ifs at h with hforb hval hconf <;> try split at h
      all_goals cases h
      show editStockAdjust db.items loan.is_returned loan.item_id f.item_id
        = db.items
      rw [hret]
      simp [editStockAdjust]
  · intro db actor lid loan db' hfind hret h
    unfold delete_loan at h
    split_ifs at h with hadm
    all_goals try split at h
    all_goals try (rename_i loan' heq; rw [hfind] at heq; cases heq)
    all_goals cases h
    show (if !loan.is_returned && truthyId loan.item_id
        then adjust_item_stock db.items loan.item_id 1 else db.items)
      = db.items
    rw [hret]
    simp

/-- Returned loan holding a StockItem reference, for the C7 witness. -/
def loanC7 : Loan :=
  { id := 1, borrower_name := "Kari", borrower_phone := "", class_info := "",
    item := "Lader", reason := "", checkout_date := 10, value := "",
    due_date := some 12, return_date := some 40, user_id := 7,
    is_returned := true, pc_id := none, item_id := some 1 }

/-- State for the C7 witness, with a second stock item to switch to. -/
def dbC7 : DB :=
  { items := [⟨1, "Lader", 3, 3⟩, ⟨2, "Mus", 5, 5⟩], pcs := [],
    loans := [loanC7] }

/-- An edit that changes the StockItem reference of the returned loan. -/
def formC7 : LoanForm :=
  { borrower_name := "Kari", borrower_phone := "", class_info := "",
    item := "Mus", reason := "", value := "", due_date_field := none,
    pc_id := none, item_id := some 2 }

/-- Witness for C7: editing the returned loan (switching its StockItem from
1 to 2) and deleting it both leave the stock untouched. -/
theorem C7_returned_loan_stock_frame_witness :
    (∃ db' : DB, edit_loan dbC7 ⟨7, false⟩ 1 formC7 = .ok db'
      ∧ db'.items = dbC7.items)
    ∧ (∃ db2 : DB, delete_loan dbC7 ⟨9, true⟩ 1 = .ok db2
      ∧ db2.items = dbC7.items) := by
  constructor
  · refine ⟨_, rfl, ?_⟩
    exact C7_returned_loan_stock_frame.1 dbC7 ⟨7, false⟩ 1 formC7 loanC7 _
      rfl rfl rfl
  · refine ⟨_, rfl, ?_⟩
    exact C7_returned_loan_stock_frame.2 dbC7 ⟨9, true⟩ 1 loanC7 _ rfl rfl rfl

/-- Claim C8: the derived overdue flag holds exactly when the loan is not
returned, has a due date, and the due date is strictly before today; a loan
due yesterday and not returned is overdue; a returned loan is never overdue. -/
theorem C8_overdue_characterisation :
    ∀ (l : Loan) (today : Nat),
      (overdue l today = true ↔
        l.is_returned = false ∧ ∃ d, l.due_date = some d ∧ d < today)
      ∧ (l.is_returned = true → overdue l today = false)
      ∧ (0 < today → l.due_date = some (today - 1) → l.is_returned = false →
          overdue l today = true) := by
  intro l today
  refine ⟨?_, ?_, ?_⟩
  · unfold overdue
    constructor
    · intro h
      rcases Bool.and_eq_true_iff.mp h with ⟨h1, h2⟩
      refine ⟨by simpa using h1, ?_⟩
      cases hd : l.due_date with
      | none => rw [hd] at h2; cases h2
      | some d =>
        rw [hd] at h2
        exact ⟨d, rfl, of_decide_eq_true h2⟩
    · rintro ⟨h1, d, hd, hlt⟩
      rw [h1, hd]
      simp [hlt]
  · intro h
    unfold overdue
    rw [h]
    simp
  · intro ht hd hr
    unfold overdue
    rw [hr, hd]
    simp
    omega

/-- Witness for C8 at a concrete loan: due yesterday (day 9, today 10) and not
returned, hence overdue; the same loan once returned is not overdue. -/
theorem C8_overdue_characterisation_witness :
    overdue { loanC5 with due_date := some 9 } 10 = true
    ∧ overdue { loanC7 with due_date := some 9 } 10 = false := by
  constructor
  · exact (C8_overdue_characterisation { loanC5 with due_date := some 9 }
      10).2.2 (by decide) rfl rfl
  · exact (C8_overdue_characterisation { loanC7 with due_date := some 9 }
      10).2.1 rfl

/-- Claim C9: `api_borrower_last` returns the data of a loan whose borrower
name matches the requested name case-insensitively and exactly, whose checkout
instant is maximal among all matching loans, and whose payload carries the
loan's phone, class, item text and PC reference; when no loan matches (and the
name is not blank) it returns `NotFound`. -/
theorem C9_borrower_last :
    ∀ (db : DB) (rawName : String),
      (∀ r : BorrowerLast, api_borrower_last db rawName = .ok r →
        ∃ l, l ∈ db.loans
          ∧ lowerStr l.borrower_name = lowerStr (stripStr rawName)
          ∧ r = ⟨l.borrower_phone, l.class_info, l.item, l.pc_id⟩
          ∧ ∀ l' ∈ db.loans,
              lowerStr l'.borrower_name = lowerStr (stripStr rawName) →
              l'.checkout_date ≤ l.checkout_date)
      ∧ (stripStr rawName ≠ "" →
          (∀ l ∈ db.loans,
            lowerStr l.borrower_name ≠ lowerStr (stripStr rawName)) →
          api_borrower_last db rawName = .error .notFound) := by
  intro db rawName
  constructor
  · intro r h
    unfold api_borrower_last at h
    split_ifs at h with hblank
    all_goals try split at h
    all_goals cases h
    rename_i l hm
    have hmem := lastByCheckout_mem _ _ hm
    have hf := List.mem_filter.mp hmem
    refine ⟨l, hf.1, by simpa using hf.2, rfl, ?_⟩
    intro l' hl' hname
    apply lastByCheckout_ge _ _ hm
    exact List.mem_filter.mpr ⟨hl', by simpa using hname⟩
  · intro hblank hnone
    unfold api_borrower_last
    rw [if_neg (by simp [hblank])]
    have hfil : db.loans.filter
        (fun l => lowerStr l.borrower_name == lowerStr (stripStr rawName))
        = [] := by
      rw [List.filter_eq_nil_iff]
      intro l hl
      simp [hnone l hl]
    rw [hfil]
    rfl

/-- C9 witness loan: older lowercase match. -/
def loanC9a : Loan :=
  { loanC5 with
    id := 1
    borrower_name := "ola nordmann"
    borrower_phone := "111"
    checkout_date := 10 }

/-- C9 witness loan: most recent case-variant match, with class, item and PC. -/
def loanC9b : Loan :=
  { loanC5 with
    id := 2
    borrower_name := "Ola Nordmann"
    borrower_phone := "222"
    class_info := "3IDA"
    item := "Lader"
    checkout_date := 30
    pc_id := some 4 }

/-- C9 witness loan: unrelated borrower with the latest checkout of all. -/
def loanC9c : Loan :=
  { loanC5 with
    id := 3
    borrower_name := "Kari"
    checkout_date := 99 }

/-- Loans for the C9 witness: two case-variant matches and one non-match. -/
def dbC9 : DB := { items := [], pcs := [], loans := [loanC9a, loanC9b, loanC9c] }

/-- Witness for C9: the lookup returns the most recent case-insensitive match
with its phone, class, item and PC reference, and an unknown name is
`NotFound`. -/
theorem C9_borrower_last_witness :
    api_borrower_last dbC9 " OLA nordmann "
      = .ok ⟨"222", "3IDA", "Lader", some 4⟩
    ∧ api_borrower_last dbC9 "Nils" = .error .notFound := by
  constructor
  · rfl
  · exact (C9_borrower_last dbC9 "Nils").2 (by decide) (by decide)

/-- Claim C10: the stock adjustment is total and silently ignores missing
targets — a `none` id and an id with no matching item are both no-ops — and a
`new_loan` referencing a nonexistent StockItem id still succeeds with the
stock unchanged. -/
theorem C10_adjust_missing_noop :
    (∀ (items : List Item) (d : Int), adjust_item_stock items none d = items)
    ∧ (∀ (items : List Item) (iid : Nat) (d : Int),
        (∀ it ∈ items, it.id ≠ iid) →
        adjust_item_stock items (some iid) d = items)
    ∧ (∀ (db : DB) (aid : Nat) (f : LoanForm) (now nid iid : Nat),
        f.borrower_name ≠ "" → f.item ≠ "" →
        f.due_date_field ≠ some DateField.malformed →
        pcConflictCheck db.loans f.pc_id = false →
        f.item_id = some iid → (∀ it ∈ db.items, it.id ≠ iid) →
        ∃ db1 : DB, new_loan db aid f now nid = .ok db1
          ∧ db1.items = db.items) := by
  refine ⟨fun items d => rfl, ?_, ?_⟩
  · intro items iid d hno
    simp only [adjust_item_stock]
    split_ifs with h0
    · rfl
    · apply updateFirstBy_of_find?_none
      rw [List.find?_eq_none]
      intro it hit
      simp [hno it hit]
  · intro db aid f now nid iid hb hi hd hconf hfi hno
    obtain ⟨dd, hdd⟩ := parseDueDate_ok _ hd
    have hval : (f.borrower_name == "" || f.item == "") = false := by
      simp [hb, hi]
    refine ⟨_, new_loan_ok db aid f now nid dd hdd hval hconf, ?_⟩
    show (if truthyId f.item_id
        then adjust_item_stock db.items f.item_id (-1) else db.items)
      = db.items
    rw [hfi]
    by_cases h0 : iid = 0
    · subst h0
      simp [truthyId]
    · rw [if_pos (by simp [truthyId, h0])]
      simp only [adjust_item_stock]
      rw [if_neg (by simp [h0])]
      apply updateFirstBy_of_find?_none
      rw [List.find?_eq_none]
      intro it hit
      simp [hno it hit]

/-- Witness for C10: adjusting a missing id 9 is a no-op, and creating a loan
that references id 9 succeeds with stock untouched. -/
theorem C10_adjust_missing_noop_witness :
    adjust_item_stock [(⟨1, "Lader", 3, 3⟩ : Item)] (some 9) (-1)
      = [(⟨1, "Lader", 3, 3⟩ : Item)]
    ∧ ∃ db1 : DB,
        new_loan { items := [⟨1, "Lader", 3, 3⟩], pcs := [], loans := [] }
          7 { formC3 with item_id := some 9 } 100 1 = .ok db1
        ∧ db1.items = [(⟨1, "Lader", 3, 3⟩ : Item)] := by
  constructor
  · exact C10_adjust_missing_noop.2.1 [⟨1, "Lader", 3, 3⟩] 9 (-1) (by decide)
  · exact C10_adjust_missing_noop.2.2
      { items := [⟨1, "Lader", 3, 3⟩], pcs := [], loans := [] } 7
      { formC3 with item_id := some 9 } 100 1 9 (by decide) (by decide)
      (by decide) (by decide) rfl (by decide)

end Ikt
